import Mathlib

/-!
Verification of `shell/renderer/api/atom_api_context_bridge.cc` (the Electron
context bridge) against its natural-language specification.

The embedding models v8 values as an inductive type tagged with the id of the
context the value lives in.  The `RenderFramePersistenceStore` is the Handle
Store of the spec; `PassValueToOtherContext`, `ProxyFunctionWrapper`,
`CreateProxyForAPI`, `DeepFreeze` and `ExposeAPIInMainWorld` are translated
from the source file.  Line numbers in comments refer to
atom_api_context_bridge.cc.
-/

namespace ContextBridge

/-- Engine-independent primitive data, standing for the `base::Value`
intermediate representation used by the fallback path (lines 220-230).
`unconvertible` marks a value for which `mate::ConvertFromV8` into
`base::Value` fails (the serialization shortfall of the spec). -/
inductive Prim : Type where
  | num (n : Int)
  | str (s : String)
  | boolean (b : Bool)
  | unconvertible (tag : Nat)
  deriving DecidableEq, Repr

/-- A property key as handed back by `GetOwnPropertyNames`.  `strKey` converts
to `std::string` via `mate::ConvertFromV8`; `intKey` fails the string
conversion but converts to `int`; `badKey` converts to neither
(lines 308-315). -/
inductive PKey : Type where
  | strKey (s : String)
  | intKey (n : Int)
  | badKey (tag : Nat)
  deriving DecidableEq, Repr

/-- What a function value does when called.  `native fid` is an ordinary
script function; `proxyWrapper func_id` is the callable produced by
`mate::ConvertToV8(isolate, base::BindRepeating(&ProxyFunctionWrapper, store,
func_id))` (lines 119-121 and 329-330). -/
inductive FuncBody : Type where
  | native (fid : Nat)
  | proxyWrapper (func_id : Nat)
  deriving DecidableEq, Repr

/-- A v8 value.  `ctx` is the context the value lives in.  Object-like values
carry a `frozen` flag standing for `SetIntegrityLevel(context, kFrozen)`.
A function carries the list of ids of `FunctionLifeMonitor`s bound to it
(`monitors`), so that monitor attachment is observable in the model.
A promise carries its eventual settlement: `none` is still pending,
`some (true, v)` will fulfill with `v`, `some (false, r)` will reject
with `r`; the bridge itself never inspects this field, it only attaches
reactions.  An object carries `enumFails`, modelling
`GetOwnPropertyNames` returning the empty `MaybeLocal` (line 298), and a
property list of `(key, gettable, value)` triples where `gettable` models
`api.Get(key_str, &value)` succeeding (line 317). -/
inductive V : Type where
  | func (ctx : Nat) (body : FuncBody) (monitors : List Nat) (frozen : Bool)
  | promise (ctx : Nat) (settlement : Option (Bool × V)) (frozen : Bool)
  | nativeError (ctx : Nat) (msg : String) (frozen : Bool)
  | arr (ctx : Nat) (elems : List V) (frozen : Bool)
  | obj (ctx : Nat) (enumFails : Bool) (props : List (PKey × Bool × V)) (frozen : Bool)
  | nullV (ctx : Nat)
  | undefinedV (ctx : Nat)
  | prim (ctx : Nat) (data : Prim)

/-- Translation of `v8::Value::IsFunction`. -/
def V.isFunction : V → Bool
  | .func .. => true
  | _ => false

/-- Translation of `v8::Value::IsPromise`. -/
def V.isPromise : V → Bool
  | .promise .. => true
  | _ => false

/-- Translation of `v8::Value::IsNativeError`. -/
def V.isNativeError : V → Bool
  | .nativeError .. => true
  | _ => false

/-- Translation of `v8::Value::IsArray`. -/
def V.isArray : V → Bool
  | .arr .. => true
  | _ => false

/-- Translation of `v8::Value::IsObject`: true for every JSReceiver, so functions, promises,
native errors and arrays are all objects; null, undefined and primitives are
not. -/
def V.isObject : V → Bool
  | .func .. => true
  | .promise .. => true
  | .nativeError .. => true
  | .arr .. => true
  | .obj .. => true
  | _ => false

/-- Translation of `v8::Value::IsNull`. -/
def V.isNull : V → Bool
  | .nullV _ => true
  | _ => false

/-- Translation of `v8::Value::IsUndefined`. -/
def V.isUndefined : V → Bool
  | .undefinedV _ => true
  | _ => false

/-- Translation of `v8::Value::IsNullOrUndefined`. -/
def V.isNullOrUndefined (v : V) : Bool :=
  v.isNull || v.isUndefined

/-- The message `v8::Exception::CreateMessage` extracts from a thrown or
error value: for a native error its message, for any other value a generic
rendering. -/
def V.v8Message : V → String
  | .nativeError _ m _ => m
  | _ => "Uncaught exception"

/-- The monitors bound to a function value (empty for non-functions). -/
def V.monitors : V → List Nat
  | .func _ _ ms _ => ms
  | _ => []

/-- Elements of an array value (empty for non-arrays). -/
def V.arrElems : V → List V
  | .arr _ es _ => es
  | _ => []

/-- Property triples of an object value (empty for non-objects). -/
def V.objProps : V → List (PKey × Bool × V)
  | .obj _ _ ps _ => ps
  | _ => []

/-- Whether own-property enumeration fails on an object value. -/
def V.objEnumFails : V → Bool
  | .obj _ ef _ _ => ef
  | _ => false

/-- Primitive payload of a value, when it has one. -/
def V.primData : V → Option Prim
  | .prim _ p => some p
  | _ => none

/-- Modelled from the spec: `RenderFramePersistenceStore` is declared in
`atom_api_context_bridge.h`, which is not among the sources; §3 of the spec
describes it as `{ next_id : monotonically increasing integer; entries :
mapping from integer id to (callable reference, owning-context reference) }`,
and the .cc file accesses it through `store->take_id()` and
`store->functions()`.  `functions` is the id-keyed map of
`(function, owning context)` entries, kept as an association list whose
update and erase operations have map semantics. -/
structure Store : Type where
  next_id : Nat
  functions : List (Nat × V × Nat)

/-- Modelled from the spec: `take_id` hands out the next id of the monotonic
counter and advances it; ids are never recycled (§3: "monotonic counter, no
recycling"). -/
def Store.take_id (s : Store) : Nat × Store :=
  (s.next_id, { s with next_id := s.next_id + 1 })

/-- The assignment `store->functions()[func_id] = entry`: map insert-or-assign. -/
def Store.setFunc (s : Store) (id : Nat) (f : V) (owning : Nat) : Store :=
  { s with functions := (id, f, owning) :: s.functions.filter (fun e => e.1 != id) }

/-- The call `store->functions().erase(func_id)`. -/
def Store.eraseFunc (s : Store) (id : Nat) : Store :=
  { s with functions := s.functions.filter (fun e => e.1 != id) }

/-- Map lookup in `store->functions()`.  `ProxyFunctionWrapper` reads the
entry with `operator[]` (lines 240 and 244); a missing id there would
default-construct empty handles and dereference them, which the spec calls
"fatal/unreachable by design", so the model exposes the lookup as an
`Option`. -/
def Store.lookupFunc (s : Store) (id : Nat) : Option (V × Nat) :=
  (s.functions.find? (fun e => e.1 == id)).map (fun e => e.2)

/-- Number of live Handle Store entries (`store->functions().size()`,
reported by the debug-only `_debugGCMaps` at line 351). -/
def Store.entryCount (s : Store) : Nat :=
  s.functions.length

/-- Translation of `FunctionLifeMonitor::RunDestructor` (line 83): the sole effect of a
lifetime monitor firing is erasing its entry. -/
def FunctionLifeMonitor.runDestructor (store : Store) (func_id : Nat) : Store :=
  store.eraseFunc func_id

/-- Key normalization, `base::NumberToString(key_int)`, after the two key conversions of
lines 309-314: a string key converts as itself, an integer key is normalized
to its decimal string form, a key convertible to neither string nor int
yields `none` (the loop `continue`s). -/
def normKey : PKey → Option String
  | .strKey s => some s
  | .intKey n => some (toString n)
  | .badKey _ => none

mutual

/-- Translation of `PassValueToOtherContext` (lines 102-231), done branch by branch in
source order: functions (109-127, registering the function under a fresh id
and binding exactly one `FunctionLifeMonitor` to the proxy), promises
(131-170, returning the new pending promise immediately; its reactions are
`promiseThenCb`/`promiseCatchCb` below), native errors (174-178), arrays
(182-196), objects (199-205, delegating to `CreateProxyForAPI`), null
(210-213), undefined (215-218) and the `base::Value` fallback (220-230). -/
def passValueToOtherContext (source destination : Nat) (value : V)
    (store : Store) : V × Store :=
  match value with
  | .func _ _ _ _ =>
      let idStore := store.take_id
      let store2 := idStore.2.setFunc idStore.1 value source
      (V.func destination (.proxyWrapper idStore.1) [idStore.1] false, store2)
  | .promise _ _ _ =>
      (V.promise destination none false, store)
  | .nativeError _ msg _ =>
      (V.nativeError destination msg false, store)
  | .arr _ elems _ =>
      let r := passEachValue source destination elems store
      (V.arr destination r.1 false, r.2)
  | .obj _ ef props _ =>
      createProxyForAPI ef props source destination store
  | .nullV _ => (V.nullV destination, store)
  | .undefinedV _ => (V.undefinedV destination, store)
  | .prim _ p =>
      match p with
      | .unconvertible _ => (V.nullV destination, store)
      | pd => (V.prim destination pd, store)
termination_by sizeOf value
decreasing_by all_goals (simp_wf <;> (try simp) <;> omega)

/-- The per-element loop shared by the array branch of
`PassValueToOtherContext` (lines 188-194) and the argument loop of
`ProxyFunctionWrapper` (lines 249-252): each value is passed through
`PassValueToOtherContext` in order, threading the store. -/
def passEachValue (source destination : Nat) (values : List V)
    (store : Store) : List V × Store :=
  match values with
  | [] => ([], store)
  | v :: rest =>
      let r1 := passValueToOtherContext source destination v store
      let r2 := passEachValue source destination rest r1.2
      (r1.1 :: r2.1, r2.2)
termination_by sizeOf values
decreasing_by all_goals (simp_wf <;> (try simp) <;> omega)

/-- Translation of `CreateProxyForAPI` (lines 290-344): creates an empty dictionary in the
target context, returns it unchanged when `GetOwnPropertyNames` fails
(lines 298-299), and otherwise fills it from the key loop
(`createProxyEntries`). -/
def createProxyForAPI (enumFails : Bool) (props : List (PKey × Bool × V))
    (source target : Nat) (store : Store) : V × Store :=
  if enumFails then (V.obj target false [] false, store)
  else
    let r := createProxyEntries props source target store
    (V.obj target false r.1 false, r.2)
termination_by sizeOf props + 1
decreasing_by all_goals (simp_wf <;> (try simp) <;> omega)

/-- The key loop of `CreateProxyForAPI` (lines 306-341).  A key convertible
to neither string nor int is skipped (lines 309-312), as is a key whose
value cannot be gotten (lines 317-318).  A function value is registered
under a fresh id and installed as a `ProxyFunctionWrapper` method with no
lifetime monitor (lines 320-330).  A value that is an object but not null,
not an array and not a promise — so a plain object or a native error — is
mirrored through a recursive `CreateProxyForAPI` (lines 331-336; a native
error dictionary contributes no entries in this model).  Everything else
goes through `PassValueToOtherContext` (lines 337-339). -/
def createProxyEntries (props : List (PKey × Bool × V))
    (source target : Nat) (store : Store) : List (PKey × Bool × V) × Store :=
  match props with
  | [] => ([], store)
  | (k, gettable, v) :: rest =>
      match normKey k with
      | none => createProxyEntries rest source target store
      | some ks =>
          if gettable = false then createProxyEntries rest source target store
          else
            match v with
            | .func _ _ _ _ =>
                let idStore := store.take_id
                let store2 := idStore.2.setFunc idStore.1 v source
                let r := createProxyEntries rest source target store2
                ((PKey.strKey ks, true,
                    V.func target (.proxyWrapper idStore.1) [] false) :: r.1,
                  r.2)
            | .obj _ ef2 props2 _ =>
                let sub := createProxyForAPI ef2 props2 source target store
                let r := createProxyEntries rest source target sub.2
                ((PKey.strKey ks, true, sub.1) :: r.1, r.2)
            | .nativeError _ _ _ =>
                let sub := createProxyForAPI false [] source target store
                let r := createProxyEntries rest source target sub.2
                ((PKey.strKey ks, true, sub.1) :: r.1, r.2)
            | other =>
                let r1 := passValueToOtherContext source target other store
                let r := createProxyEntries rest source target r1.2
                ((PKey.strKey ks, true, r1.1) :: r.1, r.2)
termination_by sizeOf props
decreasing_by all_goals (simp_wf <;> (try simp) <;> omega)

end

/-- Settled state of the destination-side promise created by the promise
branch (its `util::Promise` is resolved or rejected by the reactions). -/
inductive Settled : Type where
  | fulfilled (v : V)
  | rejected (v : V)

/-- Translation of `then_cb` (lines 139-149): receives the source promise's fulfillment
value, recursively marshals it into the destination context and resolves the
new promise with it. -/
def promiseThenCb (source destination : Nat) (store : Store) (result : V) :
    Settled × Store :=
  let r := passValueToOtherContext source destination result store
  (.fulfilled r.1, r.2)

/-- Translation of `catch_cb` (lines 150-160): receives the source promise's rejection
reason, recursively marshals it into the destination context and rejects the
new promise with it. -/
def promiseCatchCb (source destination : Nat) (store : Store) (result : V) :
    Settled × Store :=
  let r := passValueToOtherContext source destination result store
  (.rejected r.1, r.2)

/-- The engine side of `v8_promise->Then(source, then_fn, catch_fn)`
(lines 162-167): once the source promise settles, the matching reaction
receives the settlement value; while it is pending no reaction runs. -/
def runPromiseReactions (source destination : Nat) (store : Store) :
    Option (Bool × V) → Option (Settled × Store)
  | none => none
  | some (true, v) => some (promiseThenCb source destination store v)
  | some (false, r) => some (promiseCatchCb source destination store r)

/-- Outcome of `func->Call(func_owning_context, func, ...)` inside the
`v8::TryCatch` (lines 258-272), as observed by `ProxyFunctionWrapper`:
a value, an empty `MaybeLocal` without an exception, or a caught exception.
For a caught exception, `messageOk` tells whether `try_catch.Message()` is
non-empty and converts to `std::string` (lines 265-267); the extracted text
is `V.v8Message` of the thrown value. -/
inductive CallOutcome : Type where
  | retV (v : V)
  | retEmpty
  | threw (err : V) (messageOk : Bool)

/-- The behavior of real functions, abstracting the engine's `Function::Call`:
given the callee value and the (already marshalled) argument list, it yields
the call outcome. -/
def FuncEnv : Type := V → List V → CallOutcome

/-- The fixed generic message of lines 268-270, raised when no valid
exception message could be extracted. -/
def genericProxyError : String :=
  "An unknown exception occurred in the isolated context, an error occurred but a valid exception was not thrown."

/-- What `ProxyFunctionWrapper` hands back to its caller: a returned value,
or a brand-new exception raised in the calling context via
`args->ThrowError(error_message)` (lines 275-278).  A raised exception
carries only the context it is raised in and the message text: the original
thrown object and its type never cross the boundary. -/
inductive WrapperResult : Type where
  | value (v : V)
  | raised (ctx : Nat) (msg : String)

/-- Translation of `ProxyFunctionWrapper` (lines 233-288): look up the registered function
and its owning context, marshal every argument from the calling context into
the owning context, call the real function, and either marshal the return
value back, return undefined for an empty return, or re-raise the caught
exception's extracted message (falling back to `genericProxyError`) as a new
error in the calling context.  A stale id (entry already erased) yields
`none`: the source reads the entry with `operator[]` and would dereference
empty handles, which the spec treats as fatal/unreachable by design. -/
def proxyFunctionWrapper (env : FuncEnv) (store : Store) (func_id : Nat)
    (callingCtx : Nat) (args : List V) : Option (WrapperResult × Store) :=
  match store.lookupFunc func_id with
  | none => none
  | some fo =>
      let owningCtx := fo.2
      let pr := passEachValue callingCtx owningCtx args store
      match env fo.1 pr.1 with
      | .threw err messageOk =>
          let msg := if messageOk then err.v8Message else genericProxyError
          some (.raised callingCtx msg, pr.2)
      | .retEmpty => some (.value (V.undefinedV callingCtx), pr.2)
      | .retV rv =>
          let rr := passValueToOtherContext owningCtx callingCtx rv pr.2
          some (.value rr.1, rr.2)

mutual

/-- Translation of `DeepFreeze` (lines 52-64): visits every own property, recurses into
children that are objects (in the `IsObject` sense, so nested plain objects,
arrays, functions, promises and errors alike), and finally marks the visited
object itself frozen via `SetIntegrityLevel(context, kFrozen)`.  Null,
undefined and primitives are not objects and are left alone. -/
def deepFreeze : V → V
  | .obj c ef props _ => .obj c ef (deepFreezeProps props) true
  | .arr c es _ => .arr c (deepFreezeElems es) true
  | .func c b ms _ => .func c b ms true
  | .promise c st _ => .promise c st true
  | .nativeError c m _ => .nativeError c m true
  | v => v
termination_by v => sizeOf v
decreasing_by all_goals (simp_wf <;> (try simp) <;> omega)

/-- The own-property loop of `DeepFreeze` over an object's properties. -/
def deepFreezeProps : List (PKey × Bool × V) → List (PKey × Bool × V)
  | [] => []
  | (k, g, v) :: rest =>
      (k, g, if v.isObject then deepFreeze v else v) :: deepFreezeProps rest
termination_by ps => sizeOf ps
decreasing_by all_goals (simp_wf <;> (try simp) <;> omega)

/-- The own-property loop of `DeepFreeze` over an array's elements. -/
def deepFreezeElems : List V → List V
  | [] => []
  | v :: rest =>
      (if v.isObject then deepFreeze v else v) :: deepFreezeElems rest
termination_by es => sizeOf es
decreasing_by all_goals (simp_wf <;> (try simp) <;> omega)

end

/-- A step of navigation from a value to one of its children, along an own
property of an object or an indexed element of an array. -/
inductive PathStep : Type where
  | field (k : PKey)
  | index (i : Nat)
  deriving DecidableEq, Repr

/-- A shape-changing operation the destination context may attempt on a
value: reassign or add a property, delete a property, or reassign an array
element.  On a frozen object or array the engine makes these no-ops. -/
inductive Mutation : Type where
  | setProp (k : PKey) (v : V)
  | delProp (k : PKey)
  | setIndex (i : Nat) (v : V)

/-- Property update used by a `setProp` attempt on a non-frozen object:
reassigns an existing key or appends a new one. -/
def setPropList : List (PKey × Bool × V) → PKey → V → List (PKey × Bool × V)
  | [], k, v => [(k, true, v)]
  | (k2, g, v2) :: rest, k, v =>
      if k2 = k then (k2, g, v) :: rest else (k2, g, v2) :: setPropList rest k v

/-- The engine's handling of a mutation attempt on a value: on a frozen
object or array it has no effect; on a non-frozen object or array it updates
the properties or elements; values of other kinds have no mutable own
properties in this model. -/
def applyMutation : V → Mutation → V
  | .obj c ef props fr, .setProp k v =>
      if fr then .obj c ef props fr else .obj c ef (setPropList props k v) fr
  | .obj c ef props fr, .delProp k =>
      if fr then .obj c ef props fr
      else .obj c ef (props.filter (fun e => e.1 != k)) fr
  | .arr c es fr, .setIndex i v =>
      if fr then .arr c es fr else .arr c (es.set i v) fr
  | v, _ => v

mutual

/-- A mutation attempted at the end of a navigation path into a value graph:
follow object properties and array indices, then apply the mutation at the
reached node. -/
def mutateAt : V → List PathStep → Mutation → V
  | v, [], m => applyMutation v m
  | .obj c ef props fr, .field k :: path, m =>
      .obj c ef (mutatePropsAt props k path m) fr
  | .arr c es fr, .index i :: path, m =>
      .arr c (mutateElemsAt es i path m) fr
  | v, _ :: _, _ => v
termination_by v path _ => (path.length, 0)

/-- Navigation into the value of property `k`. -/
def mutatePropsAt : List (PKey × Bool × V) → PKey → List PathStep → Mutation →
    List (PKey × Bool × V)
  | [], _, _, _ => []
  | (k2, g, v) :: rest, k, path, m =>
      if k2 = k then (k2, g, mutateAt v path m) :: rest
      else (k2, g, v) :: mutatePropsAt rest k path m
termination_by props _ path _ => (path.length, props.length)

/-- Navigation into element `i` of an array. -/
def mutateElemsAt : List V → Nat → List PathStep → Mutation → List V
  | [], _, _, _ => []
  | v :: rest, 0, path, m => mutateAt v path m :: rest
  | _v :: rest, i + 1, path, m => _v :: mutateElemsAt rest i path m
termination_by es _ path _ => (path.length, es.length)

end

/-- The check `global.Has(key)` on the main-world global object (line 366), with the
global's own properties modelled as an association list. -/
def globalHas (global : List (String × V)) (key : String) : Bool :=
  global.any (fun e => e.1 = key)

/-- The collision message thrown at lines 367-369. -/
def collisionError : String :=
  "Cannot bind an API on top of an existing property on the window object"

/-- Translation of `ExposeAPIInMainWorld` (lines 356-383): if the main-world global already
has the key, throw the collision error and stop; otherwise build the proxy
from the isolated context into the main context with `CreateProxyForAPI`,
deep-freeze it, and install it on the global under the key via
`SetReadOnlyNonConfigurable`.  The result is the thrown message (if any),
the Handle Store and the global property list after the call.  The frame
plumbing (`GetRenderFrame`, `GetOrCreateStore`, world lookup) resolves the
store and the two contexts, which the model takes as arguments. -/
def exposeAPIInMainWorld (key : String) (apiEnumFails : Bool)
    (apiProps : List (PKey × Bool × V)) (isolatedCtx mainCtx : Nat)
    (store : Store) (global : List (String × V)) :
    Option String × Store × List (String × V) :=
  if globalHas global key then (some collisionError, store, global)
  else
    let r := createProxyForAPI apiEnumFails apiProps isolatedCtx mainCtx store
    (none, r.2, (key, deepFreeze r.1) :: global)

/-- A Handle Store operation as performed by the bridge: registering a
function under a fresh id (`take_id` followed by the map assignment, as at
lines 114-116 and 324-328), or a `FunctionLifeMonitor` erasing an id
(line 83). -/
inductive StoreOp : Type where
  | register (f : V) (owningCtx : Nat)
  | eraseId (id : Nat)

/-- One Handle Store operation; returns the id handed out, if any. -/
def Store.applyOp : Store → StoreOp → Store × Option Nat
  | s, .register f c =>
      let r := s.take_id
      (r.2.setFunc r.1 f c, some r.1)
  | s, .eraseId id => (s.eraseFunc id, none)

/-- A sequence of Handle Store operations; returns the ids handed out, in
order. -/
def Store.runOps : Store → List StoreOp → Store × List Nat
  | s, [] => (s, [])
  | s, op :: ops =>
      let r1 := s.applyOp op
      let r2 := r1.1.runOps ops
      (r2.1, match r1.2 with | some id => id :: r2.2 | none => r2.2)

/-- Dispatcher written from the spec's words (§4.1): dispatch by value kind,
first match wins, in the precedence order callable, promise-like,
error-like, array-like, plain object (not null/undefined, not already
handled), null, undefined, primitive fallback; null and undefined become
the destination context's own null and undefined, and a primitive that
cannot be converted degrades to the destination's null. -/
def marshalSpecOrder (source destination : Nat) (value : V) (store : Store) :
    V × Store :=
  if value.isFunction then
    let idStore := store.take_id
    let store2 := idStore.2.setFunc idStore.1 value source
    (V.func destination (.proxyWrapper idStore.1) [idStore.1] false, store2)
  else if value.isPromise then (V.promise destination none false, store)
  else if value.isNativeError then
    (V.nativeError destination value.v8Message false, store)
  else if value.isArray then
    let r := passEachValue source destination value.arrElems store
    (V.arr destination r.1 false, r.2)
  else if value.isObject && !value.isNullOrUndefined then
    createProxyForAPI value.objEnumFails value.objProps source destination store
  else if value.isNull then (V.nullV destination, store)
  else if value.isUndefined then (V.undefinedV destination, store)
  else
    match value.primData with
    | some (.unconvertible _) => (V.nullV destination, store)
    | some pd => (V.prim destination pd, store)
    | none => (V.nullV destination, store)

/-- The keys the builder's key loop keeps, per the skipping rules of
lines 306-318: keys convertible to neither string nor int are dropped, keys
whose value cannot be gotten are dropped, every other key is normalized to
its string form. -/
def builderKeys (props : List (PKey × Bool × V)) : List PKey :=
  props.filterMap fun e =>
    match normKey e.1 with
    | none => none
    | some ks => if e.2.1 then some (PKey.strKey ks) else none

/-- The empty Handle Store, as lazily created for a frame on first use. -/
def store0 : Store := { next_id := 0, functions := [] }

/-- A Handle Store holding one registered function, for instantiations. -/
def storeOne : Store :=
  { next_id := 1, functions := [(0, V.func 0 (.native 5) [] false, 0)] }

/-- A function behavior whose every call throws a native error with message
"boom" whose message extraction succeeds, for instantiations. -/
def throwingEnv : FuncEnv :=
  fun _ _ => CallOutcome.threw (V.nativeError 0 "boom" false) true

/-- A main-world global object that already owns a property `api`, for
instantiations. -/
def globalOne : List (String × V) := [("api", V.prim 0 (.num 7))]

/-! Helper lemmas shared by the claim theorems. -/

/-- The element loop marshals index by index, so it preserves length. -/
theorem passEachValue_length (s d : Nat) (es : List V) (st : Store) :
    (passEachValue s d es st).1.length = es.length := by
  induction es generalizing st with
  | nil => simp [passEachValue]
  | cons v rest ih => simp [passEachValue, ih]

/-- The keys of the proxy built by the key loop are exactly the normalized
keys that survive the two skip rules. -/
theorem createProxyEntries_keys (props : List (PKey × Bool × V)) (s t : Nat)
    (st : Store) :
    (createProxyEntries props s t st).1.map (fun e => e.1) = builderKeys props := by
  induction props generalizing st with
  | nil => simp [createProxyEntries, builderKeys]
  | cons e rest ih =>
      obtain ⟨k, g, v⟩ := e
      cases hk : normKey k with
      | none => simp [createProxyEntries, builderKeys, hk, ih]
      | some ks =>
          cases g with
          | false => simp [createProxyEntries, builderKeys, hk, ih]
          | true =>
              cases v <;>
                simpa [createProxyEntries, builderKeys, hk] using ih _

/-- Mutation attempts never change values that are not objects in the
`IsObject` sense: they have no own properties to navigate or mutate. -/
theorem mutateAt_nonObject (v : V) (h : v.isObject = false)
    (path : List PathStep) (m : Mutation) : mutateAt v path m = v := by
  cases v <;> simp_all [V.isObject] <;> cases path <;>
    simp [mutateAt, applyMutation]

mutual

/-- After `DeepFreeze`, a mutation attempt anywhere in the graph has no
effect. -/
theorem mutateAt_deepFreeze (v : V) (path : List PathStep) (m : Mutation) :
    mutateAt (deepFreeze v) path m = deepFreeze v := by
  cases v with
  | obj c ef props fr =>
      cases path with
      | nil => cases m <;> simp [deepFreeze, mutateAt, applyMutation]
      | cons step rest =>
          cases step with
          | field k =>
              have h := mutatePropsAt_deepFreezeProps props k rest m
              simp [deepFreeze, mutateAt, h]
          | index i => simp [deepFreeze, mutateAt]
  | arr c es fr =>
      cases path with
      | nil => cases m <;> simp [deepFreeze, mutateAt, applyMutation]
      | cons step rest =>
          cases step with
          | field k => simp [deepFreeze, mutateAt]
          | index i =>
              have h := mutateElemsAt_deepFreezeElems es i rest m
              simp [deepFreeze, mutateAt, h]
  | func c b ms fr =>
      cases path with
      | nil => cases m <;> simp [deepFreeze, mutateAt, applyMutation]
      | cons step rest => cases step <;> simp [deepFreeze, mutateAt]
  | promise c pst fr =>
      cases path with
      | nil => cases m <;> simp [deepFreeze, mutateAt, applyMutation]
      | cons step rest => cases step <;> simp [deepFreeze, mutateAt]
  | nativeError c msg fr =>
      cases path with
      | nil => cases m <;> simp [deepFreeze, mutateAt, applyMutation]
      | cons step rest => cases step <;> simp [deepFreeze, mutateAt]
  | nullV c => simp [deepFreeze, mutateAt_nonObject, V.isObject]
  | undefinedV c => simp [deepFreeze, mutateAt_nonObject, V.isObject]
  | prim c p => simp [deepFreeze, mutateAt_nonObject, V.isObject]
termination_by (sizeOf v, 0)
decreasing_by all_goals (simp_wf <;> (try simp) <;> omega)

/-- After `DeepFreeze` of an object's property list, navigation into any
property mutates nothing. -/
theorem mutatePropsAt_deepFreezeProps (props : List (PKey × Bool × V))
    (k : PKey) (path : List PathStep) (m : Mutation) :
    mutatePropsAt (deepFreezeProps props) k path m = deepFreezeProps props := by
  cases props with
  | nil => simp [deepFreezeProps, mutatePropsAt]
  | cons e rest =>
      obtain ⟨k2, g, v⟩ := e
      have hrest := mutatePropsAt_deepFreezeProps rest k path m
      by_cases hv : v.isObject
      · have h := mutateAt_deepFreeze v path m
        simp [deepFreezeProps, mutatePropsAt, hv, h, hrest]
      · have h := mutateAt_nonObject v (by simpa using hv) path m
        simp [deepFreezeProps, mutatePropsAt, hv, h, hrest]
termination_by (sizeOf props, 1)
decreasing_by all_goals (simp_wf <;> (try simp) <;> omega)

/-- After `DeepFreeze` of an array's elements, navigation into any index
mutates nothing. -/
theorem mutateElemsAt_deepFreezeElems (es : List V) (i : Nat)
    (path : List PathStep) (m : Mutation) :
    mutateElemsAt (deepFreezeElems es) i path m = deepFreezeElems es := by
  cases es with
  | nil => simp [deepFreezeElems, mutateElemsAt]
  | cons v rest =>
      cases i with
      | zero =>
          by_cases hv : v.isObject
          · have h := mutateAt_deepFreeze v path m
            simp [deepFreezeElems, mutateElemsAt, hv, h]
          · have h := mutateAt_nonObject v (by simpa using hv) path m
            simp [deepFreezeElems, mutateElemsAt, hv, h]
      | succ j =>
          have h := mutateElemsAt_deepFreezeElems rest j path m
          simp [deepFreezeElems, mutateElemsAt, h]
termination_by (sizeOf es, 1)
decreasing_by all_goals (simp_wf <;> (try simp) <;> omega)

end

/-! Claim theorems. -/

/-- C2: `PassValueToOtherContext` applies exactly the first matching case of
the fixed precedence order callable, promise-like, error-like, array-like,
plain object, null/undefined, primitive fallback (`marshalSpecOrder` is that
dispatch order written from the spec, deciding each case with the engine's
kind predicates, under which every function, promise, error and array is
also an object); in particular null and undefined come back as the
destination context's own null and undefined. -/
theorem pass_value_follows_spec_order (s d : Nat) (v : V) (st : Store) :
    passValueToOtherContext s d v st = marshalSpecOrder s d v st := by
  cases v with
  | prim c p =>
      cases p <;>
        simp [passValueToOtherContext, marshalSpecOrder, V.isFunction,
          V.isPromise, V.isNativeError, V.isArray, V.isObject, V.isNull,
          V.isUndefined, V.isNullOrUndefined, V.primData]
  | _ =>
      simp [passValueToOtherContext, marshalSpecOrder, V.isFunction,
        V.isPromise, V.isNativeError, V.isArray, V.isObject, V.isNull,
        V.isUndefined, V.isNullOrUndefined, V.v8Message, V.arrElems,
        V.objProps, V.objEnumFails, V.primData]

/-- C3: marshalling a promise returns immediately a new pending
destination-context promise and leaves the store untouched; when the source
promise later fulfills with `v` the attached reaction resolves the new
promise with the recursively marshalled `v`, and when it rejects with `r`
the attached reaction rejects it with the recursively marshalled `r`. -/
theorem promise_marshal_pending_and_settlement (s d c : Nat)
    (pst : Option (Bool × V)) (fr : Bool) (st : Store) :
    passValueToOtherContext s d (V.promise c pst fr) st =
      (V.promise d none false, st)
    ∧ (∀ v : V, runPromiseReactions s d st (some (true, v)) =
        some (.fulfilled (passValueToOtherContext s d v st).1,
              (passValueToOtherContext s d v st).2))
    ∧ (∀ r : V, runPromiseReactions s d st (some (false, r)) =
        some (.rejected (passValueToOtherContext s d r st).1,
              (passValueToOtherContext s d r st).2)) := by
  refine ⟨?_, ?_, ?_⟩ <;>
    simp [passValueToOtherContext, runPromiseReactions, promiseThenCb,
      promiseCatchCb]

/-- C7: marshalling an array yields a new destination array of the same
length whose element at every index is the recursive marshalling of the
source element; concretely, `[f, 1, g]` becomes a length-3 array whose
elements 0 and 2 are proxies registered under distinct ids 0 and 1 and whose
element 1 equals 1. -/
theorem array_marshal_elementwise :
    (∀ (s d c : Nat) (fr : Bool) (es : List V) (st : Store),
        passValueToOtherContext s d (V.arr c es fr) st =
          (V.arr d (passEachValue s d es st).1 false, (passEachValue s d es st).2)
        ∧ (passEachValue s d es st).1.length = es.length)
    ∧ passValueToOtherContext 0 1
        (V.arr 0 [V.func 0 (.native 1) [] false, V.prim 0 (.num 1),
                  V.func 0 (.native 2) [] false] false)
        { next_id := 0, functions := [] } =
      (V.arr 1 [V.func 1 (.proxyWrapper 0) [0] false, V.prim 1 (.num 1),
                V.func 1 (.proxyWrapper 1) [1] false] false,
       { next_id := 2,
         functions := [(1, V.func 0 (.native 2) [] false, 0),
                       (0, V.func 0 (.native 1) [] false, 0)] })
    ∧ (0 : Nat) ≠ 1 := by
  refine ⟨fun s d c fr es st => ⟨?_, passEachValue_length s d es st⟩, ?_, by simp⟩
  · simp [passValueToOtherContext]
  · simp [passValueToOtherContext, passEachValue, Store.take_id, Store.setFunc]

/-- C8: a primitive that cannot be converted into the engine-independent
`base::Value` representation marshals to the destination context's null,
with no error and no store change. -/
theorem unconvertible_primitive_marshals_to_null (s d c tag : Nat)
    (st : Store) :
    passValueToOtherContext s d (V.prim c (.unconvertible tag)) st =
      (V.nullV d, st) := by
  simp [passValueToOtherContext]

/-- C10: the proxy builder silently skips every own property whose key
converts to neither string nor int and every key whose value cannot be
gotten, while still processing all remaining keys: the keys of the built
proxy are exactly `builderKeys`, and no error is raised (the builder
totally returns a proxy). -/
theorem builder_skips_bad_keys (props : List (PKey × Bool × V)) (s t : Nat)
    (st : Store) :
    ((createProxyForAPI false props s t st).1.objProps.map (fun e => e.1)) =
      builderKeys props := by
  simpa [createProxyForAPI, V.objProps] using createProxyEntries_keys props s t st

/-- Along any sequence of Handle Store operations, every id handed out is at
least the starting counter, the handed-out ids are strictly increasing, and
the counter never decreases. -/
theorem runOps_ids_bound (ops : List StoreOp) : ∀ s : Store,
    (∀ i ∈ (Store.runOps s ops).2, s.next_id ≤ i)
    ∧ List.Pairwise (· < ·) (Store.runOps s ops).2
    ∧ s.next_id ≤ (Store.runOps s ops).1.next_id := by
  induction ops with
  | nil => intro s; simp [Store.runOps]
  | cons op rest ih =>
      intro s
      cases op with
      | register f c =>
          have h := ih ((s.take_id).2.setFunc (s.take_id).1 f c)
          have hnext : ((s.take_id).2.setFunc (s.take_id).1 f c).next_id =
              s.next_id + 1 := rfl
          have hids : (Store.runOps s (StoreOp.register f c :: rest)).2 =
              s.next_id ::
                (Store.runOps ((s.take_id).2.setFunc (s.take_id).1 f c) rest).2 :=
            rfl
          have hst : (Store.runOps s (StoreOp.register f c :: rest)).1 =
              (Store.runOps ((s.take_id).2.setFunc (s.take_id).1 f c) rest).1 :=
            rfl
          rw [hids, hst]
          refine ⟨?_, ?_, ?_⟩
          · intro i hi
            rcases List.mem_cons.mp hi with rfl | hi2
            · exact Nat.le_refl _
            · have hb := h.1 i hi2
              rw [hnext] at hb
              omega
          · refine List.pairwise_cons.mpr ⟨?_, h.2.1⟩
            intro b hb
            have hb2 := h.1 b hb
            rw [hnext] at hb2
            omega
          · have hm := h.2.2
            rw [hnext] at hm
            omega
      | eraseId id =>
          have h := ih (s.eraseFunc id)
          simp only [Store.runOps, Store.applyOp] at *
          have hnext : (s.eraseFunc id).next_id = s.next_id := rfl
          exact ⟨fun i hi => hnext ▸ h.1 i hi, h.2.1, hnext ▸ h.2.2⟩

/-- C9: within one Handle Store, every id handed out is fresh — the ids
handed out along any operation sequence are strictly increasing, hence
pairwise distinct (so no id is ever handed out twice, erased or not), the
monotonic counter never decreases, and erasing an entry does not move the
counter back. -/
theorem store_ids_fresh_monotone (s : Store) (ops : List StoreOp) :
    List.Pairwise (· < ·) (Store.runOps s ops).2
    ∧ List.Pairwise (· ≠ ·) (Store.runOps s ops).2
    ∧ s.next_id ≤ (Store.runOps s ops).1.next_id
    ∧ ∀ id : Nat, (s.eraseFunc id).next_id = s.next_id := by
  have h := runOps_ids_bound ops s
  exact ⟨h.2.1, h.2.1.imp (fun hlt => Nat.ne_of_lt hlt), h.2.2, fun id => rfl⟩

/-- C4: when the real function called through `ProxyFunctionWrapper` throws
a native error with message `M`, the caller observes a newly raised
exception in the calling context whose message is `M` when extraction
succeeds and the fixed generic message otherwise; the result is a
`WrapperResult.raised`, a fresh exception carrying only text — never the
original exception object, and never silence. -/
theorem proxy_call_rethrows_message (env : FuncEnv) (store : Store)
    (func_id callingCtx ec : Nat) (args : List V) (f : V) (owningCtx : Nat)
    (M : String) (ef msgOk : Bool)
    (hl : store.lookupFunc func_id = some (f, owningCtx))
    (he : env f (passEachValue callingCtx owningCtx args store).1 =
      CallOutcome.threw (V.nativeError ec M ef) msgOk) :
    proxyFunctionWrapper env store func_id callingCtx args =
      some (.raised callingCtx (if msgOk then M else genericProxyError),
            (passEachValue callingCtx owningCtx args store).2) := by
  simp [proxyFunctionWrapper, hl, he, V.v8Message]

/-- Witness for C4 at a concrete store, function and environment. -/
theorem proxy_call_rethrows_message_witness :
    storeOne.lookupFunc 0 = some (V.func 0 (.native 5) [] false, 0)
    ∧ throwingEnv (V.func 0 (.native 5) [] false)
        (passEachValue 9 0 [] storeOne).1 =
        CallOutcome.threw (V.nativeError 0 "boom" false) true
    ∧ proxyFunctionWrapper throwingEnv storeOne 0 9 [] =
        some (.raised 9 "boom", storeOne) := by
  have h := proxy_call_rethrows_message throwingEnv storeOne 0 9 0 []
    (V.func 0 (.native 5) [] false) 0 "boom" false true
    (by simp [storeOne, Store.lookupFunc]) rfl
  refine ⟨by simp [storeOne, Store.lookupFunc], rfl, ?_⟩
  simpa [passEachValue] using h

/-- C5: exposing under a name that already exists on the main-world global
throws the collision error, the exposure does not proceed, and both the
global property list (hence the existing property) and the Handle Store are
returned unchanged. -/
theorem expose_collision_throws_and_preserves_state (key : String)
    (apiEF : Bool) (apiProps : List (PKey × Bool × V)) (iso main : Nat)
    (store : Store) (global : List (String × V))
    (h : globalHas global key = true) :
    exposeAPIInMainWorld key apiEF apiProps iso main store global =
      (some collisionError, store, global) := by
  simp [exposeAPIInMainWorld, h]

/-- Witness for C5 at a concrete global that already owns `api`. -/
theorem expose_collision_throws_and_preserves_state_witness :
    globalHas globalOne "api" = true
    ∧ exposeAPIInMainWorld "api" false [] 0 1 store0 globalOne =
        (some collisionError, store0, globalOne) :=
  ⟨by simp [globalHas, globalOne],
   expose_collision_throws_and_preserves_state "api" false [] 0 1 store0
     globalOne (by simp [globalHas, globalOne])⟩

/-- C6: a successful exposure installs the deep-frozen proxy graph on the
global, and on any deep-frozen graph every attempt to add, delete or
reassign a property, at any path reachable through own properties and array
elements, leaves the graph unchanged. -/
theorem exposed_graph_deep_frozen_immutable (key : String) (apiEF : Bool)
    (apiProps : List (PKey × Bool × V)) (iso main : Nat) (store : Store)
    (global : List (String × V)) (h : globalHas global key = false) :
    exposeAPIInMainWorld key apiEF apiProps iso main store global =
      (none, (createProxyForAPI apiEF apiProps iso main store).2,
       (key, deepFreeze (createProxyForAPI apiEF apiProps iso main store).1)
         :: global)
    ∧ ∀ (g : V) (path : List PathStep) (m : Mutation),
        mutateAt (deepFreeze g) path m = deepFreeze g := by
  exact ⟨by simp [exposeAPIInMainWorld, h],
    fun g path m => mutateAt_deepFreeze g path m⟩

/-- Witness for C6 at a concrete exposure on an empty global. -/
theorem exposed_graph_deep_frozen_immutable_witness :
    globalHas [] "api" = false
    ∧ (exposeAPIInMainWorld "api" false [] 0 1 store0 [] =
        (none, (createProxyForAPI false [] 0 1 store0).2,
         ("api", deepFreeze (createProxyForAPI false [] 0 1 store0).1) :: [])
      ∧ ∀ (g : V) (path : List PathStep) (m : Mutation),
          mutateAt (deepFreeze g) path m = deepFreeze g) :=
  ⟨rfl, exposed_graph_deep_frozen_immutable "api" false [] 0 1 store0 [] rfl⟩

/-- C1 counterexample: a function property marshalled by the API proxy
builder (`CreateProxyForAPI`) yields a proxy function with an empty monitor
list — no `FunctionLifeMonitor` is bound on that path, so it is false that
every proxy function, whether from the general marshaller or from the
builder, gets exactly one monitor at creation. -/
theorem builder_proxy_function_has_no_monitor :
    (createProxyForAPI false
        [(PKey.strKey "f", true, V.func 0 (.native 7) [] false)] 0 1 store0).1 =
      V.obj 1 false
        [(PKey.strKey "f", true, V.func 1 (.proxyWrapper 0) [] false)] false
    ∧ (V.func 1 (.proxyWrapper 0) [] false).monitors.length ≠ 1 := by
  constructor
  · simp [createProxyForAPI, createProxyEntries, normKey, store0,
      Store.take_id, Store.setFunc]
  · simp [V.monitors]

/-- C1 (amended): every proxy function created by the general marshaller
(`PassValueToOtherContext`) has exactly one lifetime monitor, bound at
creation under the freshly taken id; when that monitor fires it erases
exactly the entry registered under that id, so the Handle Store entry count
drops by exactly one — from one more than before the marshalling back to
the original count.  (Builder-created proxy functions carry no monitor, per
the counterexample.) -/
theorem marshaller_proxy_single_monitor_erase (s d fctx : Nat)
    (body : FuncBody) (mon : List Nat) (fr : Bool) (st : Store)
    (hfresh : ∀ e ∈ st.functions, e.1 < st.next_id) :
    (passValueToOtherContext s d (V.func fctx body mon fr) st).1 =
      V.func d (.proxyWrapper st.next_id) [st.next_id] false
    ∧ (passValueToOtherContext s d (V.func fctx body mon fr) st).2.entryCount =
        st.entryCount + 1
    ∧ FunctionLifeMonitor.runDestructor
        (passValueToOtherContext s d (V.func fctx body mon fr) st).2
        st.next_id =
        { next_id := st.next_id + 1, functions := st.functions }
    ∧ (FunctionLifeMonitor.runDestructor
        (passValueToOtherContext s d (V.func fctx body mon fr) st).2
        st.next_id).entryCount = st.entryCount := by
  have hfil : st.functions.filter (fun e => e.1 != st.next_id) = st.functions := by
    rw [List.filter_eq_self]
    intro e he
    simpa [bne_iff_ne] using Nat.ne_of_lt (hfresh e he)
  refine ⟨?_, ?_, ?_, ?_⟩
  · simp [passValueToOtherContext, Store.take_id, Store.setFunc]
  · simp [passValueToOtherContext, Store.take_id, Store.setFunc,
      Store.entryCount, hfil]
  · simp [passValueToOtherContext, Store.take_id, Store.setFunc,
      FunctionLifeMonitor.runDestructor, Store.eraseFunc, hfil]
  · simp [passValueToOtherContext, Store.take_id, Store.setFunc,
      FunctionLifeMonitor.runDestructor, Store.eraseFunc, Store.entryCount,
      hfil]

/-- Witness for the amended C1 at the empty store. -/
theorem marshaller_proxy_single_monitor_erase_witness :
    (∀ e ∈ store0.functions, e.1 < store0.next_id)
    ∧ (passValueToOtherContext 0 1 (V.func 0 (.native 3) [] false) store0).1 =
        V.func 1 (.proxyWrapper 0) [0] false
    ∧ (passValueToOtherContext 0 1 (V.func 0 (.native 3) [] false)
        store0).2.entryCount = 1
    ∧ (FunctionLifeMonitor.runDestructor
        (passValueToOtherContext 0 1 (V.func 0 (.native 3) [] false) store0).2
        0).entryCount = 0 := by
  have h := marshaller_proxy_single_monitor_erase 0 1 0 (.native 3) [] false
    store0 (by simp [store0])
  refine ⟨by simp [store0], ?_, ?_, ?_⟩
  · simpa [store0] using h.1
  · simpa [store0, Store.entryCount] using h.2.1
  · simpa [store0, Store.entryCount] using h.2.2.2

end ContextBridge
